import Mathlib

/-!
Shallow embedding of the `ticpu/tools` volume-control programs:
`src/volume-logitech-hidraw.c` (the HID-triggered volume daemon) and
`src/volume-logitech.c` (the early one-shot multi-sink variant), together
with the device locator (`find_hidraw_device`) and the supervisor loop
(`main`).  C machine integers are modelled as `Nat`/`Int` with explicit
reduction modulo `2 ^ 32` where unsigned overflow matters.  Asynchronous
interaction between the report-reading thread and the PulseAudio thread is
modelled as a small-step transition system on an explicit state.
-/

/-- Does `needle` occur at the very start of `hay`?  (Helper for `strstr`.) -/
def startsWith : List Char → List Char → Bool
  | [], _ => true
  | _ :: _, [] => false
  | a :: as, b :: bs => a == b && startsWith as bs

/-- C `strstr(hay, needle) != NULL`: `needle` occurs somewhere inside `hay`. -/
def strstr : List Char → List Char → Bool
  | [], needle => startsWith needle []
  | a :: t, needle => startsWith needle (a :: t) || strstr t needle

/-- Constant `PA_VOLUME_MAX` (`UINT32_MAX/2`): the service-defined volume ceiling. -/
def PA_VOLUME_MAX : Nat := 2147483647

/-- Model of `pa_cvolume`: a per-channel volume vector (one entry per channel). -/
structure PaCvolume where
  values : List Nat
deriving DecidableEq

/-- Model of `pa_cvolume_max`: the loudest channel's value (`PA_VOLUME_MUTED = 0` base). -/
def pa_cvolume_max (a : PaCvolume) : Nat :=
  a.values.foldl max 0

/-- Model of `PA_CLAMP_VOLUME`, modelled from the spec's audio-service boundary: an
applied volume is clamped into the service's valid range
`[0, PA_VOLUME_MAX]` (never negative, never above the ceiling). -/
def clampVolume (v : Nat) : Nat := min v PA_VOLUME_MAX

/-- Model of `pa_cvolume_set(a, a->channels, v)`: every channel of the vector is set
to the same clamped value. -/
def pa_cvolume_set (a : PaCvolume) (v : Nat) : PaCvolume :=
  ⟨a.values.map fun _ => clampVolume v⟩

/-- Constant `SINK_NAME_HEADSET` from `volume-logitech-hidraw.c`. -/
def SINK_NAME_HEADSET : List Char := "Logitech_G933".toList

/-- Constant `VOLUME_INCREMENT` from `volume-logitech-hidraw.c`. -/
def VOLUME_INCREMENT : Nat := 200

/-- The `switch (direction)` of `set_volume` in `volume-logitech-hidraw.c`:
`VOLUME_UP = 0x01` gives multiplicator `1`, `VOLUME_DOWN = 0x02` gives
`-1`, and any other code falls into the `abort()` default (`none`). -/
def direction_mult (direction : Nat) : Option Int :=
  if direction = 1 then some 1
  else if direction = 2 then some (-1)
  else none

/-- Model of `set_volume` from `volume-logitech-hidraw.c`: computes
`current_volume = pa_cvolume_max(volume)`, adds `increment * multiplicator`
in C `uint32_t` arithmetic (wraparound modelled by `% 2 ^ 32`), writes the
result into every channel via `pa_cvolume_set`, and issues that `pa_cvolume`
to `pa_context_set_sink_volume_by_index`.  The returned value is the
`pa_cvolume` handed to the service; `none` is the `abort()` branch. -/
def set_volume (volume : PaCvolume) (increment : Nat) (direction : Nat) :
    Option PaCvolume :=
  match direction_mult direction with
  | none => none
  | some mult =>
    let current : Nat := pa_cvolume_max volume
    let current2 : Nat :=
      (((current : Int) + (increment : Int) * mult) % (4294967296 : Int)).toNat
    some (pa_cvolume_set volume current2)

/-- Modelled from the spec (§4.3): the claimed new volume
`clamp(max_channel_volume(current) + sign(direction)*increment, 0, ceiling)`,
stated in exact integer arithmetic, for comparison with `set_volume`. -/
def spec_clamp_volume (current increment : Nat) (sign : Int) : Nat :=
  (min (max ((current : Int) + (increment : Int) * sign) 0)
    (PA_VOLUME_MAX : Int)).toNat

/-- One enumerated output (`pa_sink_info`): index, name, channel volumes. -/
structure Sink where
  index : Nat
  name : List Char
  volume : PaCvolume
deriving DecidableEq

/-- Model of `sink_list_cb` from `volume-logitech-hidraw.c` over one full enumeration:
for every sink whose name contains `SINK_NAME_HEADSET` a `set_volume`
request is issued (with a private copy of that sink's volume vector); the
end-of-list callback just returns.  The result is the list of issued
requests, in enumeration order: `(sink index, cvolume payload or abort)`. -/
def sink_list_run (sinks : List Sink) (direction : Nat) :
    List (Nat × Option PaCvolume) :=
  sinks.filterMap fun s =>
    if strstr s.name SINK_NAME_HEADSET then
      some (s.index, set_volume s.volume VOLUME_INCREMENT direction)
    else none

/-- One fixed-size HID report (the 5 bytes read per `fread`). -/
structure HidReport where
  bytes : List Nat
deriving DecidableEq

/-- Byte offset 1 of a report: the direction code (`packet[1]`). -/
def dirByte (r : HidReport) : Nat := r.bytes.getD 1 0

/-- The inner `do packet_size = fread(...) while (packet_size != 0 &&
packet[1] == 0x00)` loop of `start_daemon`: discard zero-direction reports;
`none` when the stream ends. -/
def next_direction : List HidReport → Option (Nat × List HidReport)
  | [] => none
  | r :: rest =>
    if dirByte r = 0 then next_direction rest else some (dirByte r, rest)

/-- The outer `while (1)` loop of `start_daemon` flattened over a finite
report stream: the direction codes for which an enumerate+set-volume round
is issued, in order (zero-direction reports are discarded, end-of-stream
terminates the loop). -/
def daemon_loop : List HidReport → List Nat
  | [] => []
  | r :: rest =>
    if dirByte r = 0 then daemon_loop rest else dirByte r :: daemon_loop rest

/-- Position of the reading thread inside one `start_daemon` iteration:
`reading` = blocked on `fread` (gate free for it to take), `waitGate` =
issued the enumeration and blocked on the second
`pthread_mutex_lock(&volume_set_mutex)`, `unlocking` = acquired the second
lock and about to `pthread_mutex_unlock` before looping. -/
inductive ReaderPhase where
  | reading
  | waitGate
  | unlocking
deriving DecidableEq

/-- Cross-thread state of `start_daemon`: the reader's position, whether
`volume_set_mutex` is locked, the number of `pa_context_get_sink_info_list`
operations whose callbacks have not yet run, and the number of issued
`pa_context_set_sink_volume_by_index` operations whose completion callback
(`set_volume_cb`) has not yet run. -/
structure GateState where
  reader : ReaderPhase
  mutex : Bool
  enumPending : Nat
  setPending : Nat
deriving DecidableEq

/-- Number of sinks of one enumeration whose name contains the target
substring (each causes one `set_volume` request in `sink_list_cb`). -/
def countMatches (sinks : List Sink) : Nat :=
  (sinks.filter fun s => strstr s.name SINK_NAME_HEADSET).length

/-- Transitions of the reading thread: take the mutex and issue the sink
enumeration (`pthread_mutex_lock`; `pa_context_get_sink_info_list`), acquire
the second lock once the mutex is free, release it and return to reading. -/
def readerSteps (s : GateState) : List GateState :=
  match s.reader, s.mutex with
  | .reading, false => [⟨.waitGate, true, s.enumPending + 1, s.setPending⟩]
  | .waitGate, false => [⟨.unlocking, true, s.enumPending, s.setPending⟩]
  | .unlocking, _ => [⟨.reading, false, s.enumPending, s.setPending⟩]
  | _, _ => []

/-- Transitions of the PulseAudio thread: deliver a pending enumeration's
callbacks (`sink_list_cb` issues one set-volume per matching sink), or
complete one pending set-volume (`set_volume_cb` unlocks the mutex). -/
def paSteps (sinks : List Sink) (s : GateState) : List GateState :=
  (match s.enumPending with
   | 0 => []
   | e + 1 => [⟨s.reader, s.mutex, e, s.setPending + countMatches sinks⟩])
  ++
  (match s.setPending with
   | 0 => []
   | p + 1 => [⟨s.reader, false, s.enumPending, p⟩])

/-- All enabled transitions from a state, on either thread. -/
def gateSteps (sinks : List Sink) (s : GateState) : List GateState :=
  readerSteps s ++ paSteps sinks s

/-- Operations outstanding with the audio service: unanswered enumerations
plus unanswered set-volume requests. -/
def inFlight (s : GateState) : Nat := s.enumPending + s.setPending

/-- States reachable from `start_daemon`'s initial state (reader about to
read, mutex free, nothing outstanding) for a fixed sink topology. -/
inductive GateReach (sinks : List Sink) : GateState → Prop where
  | init : GateReach sinks ⟨.reading, false, 0, 0⟩
  | step : ∀ {s s' : GateState}, GateReach sinks s → s' ∈ gateSteps sinks s →
      GateReach sinks s'

/-- Inductive invariant of the gate protocol (for topologies with at most
one matching sink): what each reader phase implies about the mutex and the
outstanding operations. -/
def GateInv (s : GateState) : Prop :=
  (s.reader = .reading → s.mutex = false ∧ s.enumPending = 0 ∧ s.setPending = 0) ∧
  (s.reader = .unlocking → s.mutex = true ∧ s.enumPending = 0 ∧ s.setPending = 0) ∧
  (s.reader = .waitGate → s.enumPending + s.setPending ≤ 1 ∧
    (s.mutex = false → s.enumPending = 0 ∧ s.setPending = 0))

/-- Constant `SINK_NAME_DEFAULT` from `volume-logitech.c`. -/
def SINK_NAME_DEFAULT : List Char :=
  "alsa_output.pci-0000_00_1f.3.analog-stereo".toList

/-- Constant `VOLUME_INCREMENT_DEFAULT` from `volume-logitech.c`. -/
def VOLUME_INCREMENT_DEFAULT : Nat := 500

/-- Constant `VOLUME_INCREMENT_HEADSET` from `volume-logitech.c`. -/
def VOLUME_INCREMENT_HEADSET : Nat := 100

/-- The file-scope static state of `sink_list_cb` in `volume-logitech.c`,
plus `ops`: the set-volume requests issued so far, recorded as
`(sink index, increment used)` in issue order. -/
structure EarlyState where
  sink_default : Nat
  sink_headset : Nat
  sink_default_volume : PaCvolume
  sink_headset_volume : PaCvolume
  done : Bool
  ops : List (Nat × Nat)
deriving DecidableEq

/-- One invocation of `sink_list_cb` from `volume-logitech.c`; `ev = none`
is the end-of-list invocation.  Mirrors the C control flow: early return
when `done`; the eol branch dispatches the recorded default sink (nonzero
index test) or quits; otherwise record a default- or headset-named sink;
finally, outside that if/else chain, dispatch the headset sink whenever its
recorded index is nonzero. -/
def early_sink_cb (st : EarlyState) (ev : Option Sink) : EarlyState :=
  if st.done then st
  else
    let st1 :=
      match ev with
      | none =>
        if st.sink_default ≠ 0 then
          { st with done := true,
                    ops := st.ops ++ [(st.sink_default, VOLUME_INCREMENT_DEFAULT)] }
        else st
      | some i =>
        if strstr i.name SINK_NAME_DEFAULT then
          { st with sink_default := i.index, sink_default_volume := i.volume }
        else if strstr i.name SINK_NAME_HEADSET then
          { st with sink_headset := i.index, sink_headset_volume := i.volume }
        else st
    if st1.sink_headset ≠ 0 then
      { st1 with done := true,
                 ops := st1.ops ++ [(st1.sink_headset, VOLUME_INCREMENT_HEADSET)] }
    else st1

/-- Initial static state of `volume-logitech.c` (C statics zero-initialised). -/
def earlyInit : EarlyState := ⟨0, 0, ⟨[]⟩, ⟨[]⟩, false, []⟩

/-- One full enumeration pass of the early variant: `sink_list_cb` invoked
once per sink in enumeration order, then once for end-of-list. -/
def early_run (sinks : List Sink) : EarlyState :=
  early_sink_cb (sinks.foldl (fun st i => early_sink_cb st (some i)) earlyInit) none

/-- Invariant of the early variant's callback state: at most one set-volume
issued, and while not `done` nothing was issued and no (nonzero) headset
sink has been recorded. -/
def EarlyInv (st : EarlyState) : Prop :=
  st.ops.length ≤ 1 ∧ (st.done = false → st.sink_headset = 0 ∧ st.ops = [])

/-- Constant `DEVICE_USB_ID` from `volume-logitech-hidraw.c`. -/
def DEVICE_USB_ID : List Char := "046D:0A5B".toList

/-- One entry of the `/sys/class/hidraw/` registry: the entry name and the
target string of its `device` symlink (`none` models `readlink` yielding
no bytes, which the C code treats as "return NULL"). -/
structure HidrawEntry where
  d_name : List Char
  link : Option (List Char)
deriving DecidableEq

/-- The `readdir` loop of `find_hidraw_device`: resolve each entry's link;
if it contains `DEVICE_USB_ID`, break and return `/dev/<entry name>`;
a failed `readlink` returns `NULL` at once; exhausting the directory
returns `NULL`. -/
def scan_hidraw : List HidrawEntry → Option (List Char)
  | [] => none
  | e :: rest =>
    match e.link with
    | none => none
    | some l =>
      if strstr l DEVICE_USB_ID then some ("/dev/".toList ++ e.d_name)
      else scan_hidraw rest

/-- Model of `find_hidraw_device`: if the registry root cannot be opened
(`root = none`), the process terminates with `exit(EXIT_FAILURE)`
(`Except.error`); otherwise the scan's result (possibly "not found"). -/
def find_hidraw_device (root : Option (List HidrawEntry)) :
    Except Unit (Option (List Char)) :=
  match root with
  | none => Except.error ()
  | some entries => Except.ok (scan_hidraw entries)

/-- What one iteration of `main`'s `while (1)` loop does after discovery. -/
inductive SupStep where
  | session (dev : List Char)
  | idle
deriving DecidableEq

/-- One iteration of `main`'s supervisor loop: locate the device (fatal exit
propagates), then either run `start_daemon` on it or report "couldn't find
device"; either way `sleep(1)` before the next iteration — the second
component is the sleep in seconds, unconditionally `1`. -/
def supervisor_iteration (root : Option (List HidrawEntry)) :
    Except Unit (SupStep × Nat) :=
  match find_hidraw_device root with
  | Except.error e => Except.error e
  | Except.ok none => Except.ok (SupStep.idle, 1)
  | Except.ok (some d) => Except.ok (SupStep.session d, 1)

/-- The supervisor's infinite loop sampled at iteration `n`, given the
registry's contents at each iteration; `none` means the process already
terminated (a fatal discovery failure at an earlier iteration). -/
def supervisor_trace (regs : Nat → Option (List HidrawEntry)) :
    Nat → Option (SupStep × Nat)
  | 0 => (supervisor_iteration (regs 0)).toOption
  | n + 1 =>
    match supervisor_trace regs n with
    | none => none
    | some _ => (supervisor_iteration (regs (n + 1))).toOption

/-- Two sinks whose names both contain the headset substring. -/
def sinksTwo : List Sink :=
  [⟨3, "Logitech_G933 Analog".toList, ⟨[100, 100]⟩⟩,
   ⟨4, "Logitech_G933 Chat".toList, ⟨[100]⟩⟩]

/-- An enumeration in which no sink name contains the headset substring. -/
def sinksNone : List Sink :=
  [⟨0, "alsa_output.usb-apple".toList, ⟨[100]⟩⟩]

/-- A non-matching sink followed by a matching one. -/
def sinksFirst : List Sink :=
  [⟨1, "alsa_output.hdmi".toList, ⟨[10, 20]⟩⟩,
   ⟨5, "Logitech_G933".toList, ⟨[300, 100]⟩⟩]

/-- Both a default-named and a headset-named sink in one enumeration. -/
def sinksBoth : List Sink :=
  [⟨1, SINK_NAME_DEFAULT, ⟨[40, 50]⟩⟩,
   ⟨2, SINK_NAME_HEADSET, ⟨[100, 100]⟩⟩]

/-- A report whose direction byte is zero. -/
def zeroReport : HidReport := ⟨[1, 0, 0, 0, 0]⟩

/-- A report whose direction byte is `VOLUME_UP`. -/
def upReport : HidReport := ⟨[1, 1, 0, 0, 0]⟩

/-- A registry whose single matching entry links to the target USB id. -/
def entriesMatch : List HidrawEntry :=
  [⟨"hidraw7".toList, some "usb-0000:00:14.0-3/0003:046D:0A5B.0005".toList⟩]

/-- A registry with no matching entry (one foreign id, one dead link). -/
def entriesNoMatch : List HidrawEntry :=
  [⟨"hidraw0".toList, some "usb-dev-1234:5678".toList⟩,
   ⟨"hidraw1".toList, none⟩]

/-- Registry history: absent at iteration 0, reappears from iteration 1 on. -/
def regsReappear : Nat → Option (List HidrawEntry) :=
  fun n => if n = 0 then some [] else some entriesMatch

theorem gateInv_step (sinks : List Sink) (hk : countMatches sinks ≤ 1)
    {s s' : GateState} (hinv : GateInv s) (hmem : s' ∈ gateSteps sinks s) :
    GateInv s' := by
  obtain ⟨r, m, e, p⟩ := s
  obtain ⟨h1, h2, h3⟩ := hinv
  cases r with
  | reading =>
    obtain ⟨hm, he, hp⟩ := h1 rfl
    subst hm; subst he; subst hp
    simp [gateSteps, readerSteps, paSteps] at hmem
    subst hmem
    unfold GateInv
    decide
  | unlocking =>
    obtain ⟨hm, he, hp⟩ := h2 rfl
    subst hm; subst he; subst hp
    simp [gateSteps, readerSteps, paSteps] at hmem
    subst hmem
    unfold GateInv
    decide
  | waitGate =>
    obtain ⟨hsum, hmf⟩ := h3 rfl
    cases m with
    | false =>
      obtain ⟨he, hp⟩ := hmf rfl
      subst he; subst hp
      simp [gateSteps, readerSteps, paSteps] at hmem
      subst hmem
      unfold GateInv
      decide
    | true =>
      cases e with
      | zero =>
        cases p with
        | zero => simp [gateSteps, readerSteps, paSteps] at hmem
        | succ p' =>
          have hp' : p' = 0 := by simp [GateState.enumPending] at hsum; omega
          subst hp'
          simp [gateSteps, readerSteps, paSteps] at hmem
          subst hmem
          unfold GateInv
          decide
      | succ e' =>
        have he' : e' = 0 := by simp at hsum; omega
        have hp0 : p = 0 := by simp at hsum; omega
        subst he'; subst hp0
        simp [gateSteps, readerSteps, paSteps] at hmem
        subst hmem
        refine ⟨by simp, by simp, fun _ => ⟨by simpa using hk, by simp⟩⟩

theorem gateInv_le_one {s : GateState} (h : GateInv s) : inFlight s ≤ 1 := by
  obtain ⟨r, m, e, p⟩ := s
  obtain ⟨h1, h2, h3⟩ := h
  cases r with
  | reading =>
    obtain ⟨_, he, hp⟩ := h1 rfl
    simp [inFlight] at he hp ⊢
    omega
  | unlocking =>
    obtain ⟨_, he, hp⟩ := h2 rfl
    simp [inFlight] at he hp ⊢
    omega
  | waitGate =>
    have := (h3 rfl).1
    simpa [inFlight] using this

/-- C2 (amended): provided at most one enumerated output matches the target
substring, every state reachable in `start_daemon`'s gate protocol has at
most one operation outstanding with the audio service. -/
theorem gate_at_most_one_inflight : ∀ (sinks : List Sink) (s : GateState),
    countMatches sinks ≤ 1 → GateReach sinks s → inFlight s ≤ 1 := by
  intro sinks s hk hr
  have hinv : GateInv s := by
    induction hr with
    | init => unfold GateInv; decide
    | step hr hstep ih => exact gateInv_step sinks hk ih hstep
  exact gateInv_le_one hinv

/-- C2 witness: the amended invariant applied at the initial state with an
empty sink topology. -/
theorem gate_at_most_one_inflight_witness :
    inFlight ⟨ReaderPhase.reading, false, 0, 0⟩ ≤ 1 :=
  gate_at_most_one_inflight [] ⟨ReaderPhase.reading, false, 0, 0⟩ (by decide)
    GateReach.init

/-- C2 counterexample: with two sinks matching the target substring, the
daemon reaches a state with one enumeration and one set-volume request
simultaneously outstanding — more than one in-flight operation. -/
theorem gate_two_inflight_trace :
    GateReach sinksTwo ⟨ReaderPhase.waitGate, true, 1, 1⟩ ∧
    inFlight ⟨ReaderPhase.waitGate, true, 1, 1⟩ = 2 := by
  constructor
  · have h0 : GateReach sinksTwo ⟨ReaderPhase.reading, false, 0, 0⟩ :=
      GateReach.init
    have h1 : GateReach sinksTwo ⟨ReaderPhase.waitGate, true, 1, 0⟩ :=
      GateReach.step h0 (by decide)
    have h2 : GateReach sinksTwo ⟨ReaderPhase.waitGate, true, 0, 2⟩ :=
      GateReach.step h1 (by decide)
    have h3 : GateReach sinksTwo ⟨ReaderPhase.waitGate, false, 0, 1⟩ :=
      GateReach.step h2 (by decide)
    have h4 : GateReach sinksTwo ⟨ReaderPhase.unlocking, true, 0, 1⟩ :=
      GateReach.step h3 (by decide)
    have h5 : GateReach sinksTwo ⟨ReaderPhase.reading, false, 0, 1⟩ :=
      GateReach.step h4 (by decide)
    exact GateReach.step h5 (by decide)
  · decide

/-- C3: when no enumerated output's name contains the target substring,
`sink_list_cb` issues no set-volume request, so `set_volume_cb` never
releases the gate; the daemon reaches the state where the reader blocks on
the second mutex acquisition and no transition is enabled — the loop is
blocked forever, contradicting the claimed "not found is a no-op and the
next report is processed". -/
theorem no_match_deadlock :
    sink_list_run sinksNone 1 = [] ∧
    GateReach sinksNone ⟨ReaderPhase.waitGate, true, 0, 0⟩ ∧
    gateSteps sinksNone ⟨ReaderPhase.waitGate, true, 0, 0⟩ = [] := by
  refine ⟨by decide, ?_, by decide⟩
  have h0 : GateReach sinksNone ⟨ReaderPhase.reading, false, 0, 0⟩ :=
    GateReach.init
  have h1 : GateReach sinksNone ⟨ReaderPhase.waitGate, true, 1, 0⟩ :=
    GateReach.step h0 (by decide)
  exact GateReach.step h1 (by decide)

/-- C1 (code evaluated at the failing input): with max channel volume 100
and a down event of increment 200, `set_volume`'s `uint32_t` arithmetic
wraps below zero and the service clamp sends every channel to the ceiling
`PA_VOLUME_MAX`, whereas the spec's clamp formula yields 0. -/
theorem set_volume_underflow_jump :
    set_volume ⟨[100, 100]⟩ 200 2 = some ⟨[PA_VOLUME_MAX, PA_VOLUME_MAX]⟩ ∧
    spec_clamp_volume 100 200 (-1) = 0 ∧
    PA_VOLUME_MAX ≠ 0 := by decide

/-- C5: the reader's inner loop discards a zero-direction report without
returning (it keeps reading), and every direction code for which the outer
loop issues an enumerate+set-volume round is nonzero. -/
theorem reader_discards_zero_reports : ∀ (stream : List HidReport),
    (∀ d ∈ daemon_loop stream, d ≠ 0) ∧
    (∀ r rest, stream = r :: rest → dirByte r = 0 →
      next_direction stream = next_direction rest) := by
  intro stream
  constructor
  · induction stream with
    | nil => simp [daemon_loop]
    | cons r rest ih =>
      intro d hd
      by_cases h : dirByte r = 0
      · simp [daemon_loop, h] at hd
        exact ih d hd
      · simp [daemon_loop, h] at hd
        rcases hd with hd | hd
        · rw [hd]; exact h
        · exact ih d hd
  · intro r rest hs h0
    subst hs
    simp [next_direction, h0]

/-- C5 witness: the inner-loop equation applied to a concrete stream whose
first report has direction byte zero. -/
theorem reader_discards_zero_reports_witness :
    next_direction [zeroReport, upReport] = next_direction [upReport] :=
  (reader_discards_zero_reports [zeroReport, upReport]).2 zeroReport [upReport]
    rfl (by decide)

/-- C6 counterexample: direction code 3 is nonzero, yet `set_volume` takes
the `abort()` default branch on it. -/
theorem set_volume_aborts_on_direction_three :
    set_volume ⟨[100]⟩ 200 3 = none ∧ (3 : Nat) ≠ 0 := by decide

/-- C6 (amended): direction codes `0x01` and `0x02` decode to an up/down
multiplicator and issue a volume adjustment; every other nonzero code
reaches the `abort()` branch, so the abort branch is reachable from nonzero
direction bytes other than 1 and 2. -/
theorem set_volume_direction_cases : ∀ (v : PaCvolume) (inc d : Nat),
    ((d = 1 ∨ d = 2) → (set_volume v inc d).isSome = true) ∧
    (d ≠ 0 → d ≠ 1 → d ≠ 2 → set_volume v inc d = none) := by
  intro v inc d
  constructor
  · rintro (rfl | rfl) <;> simp [set_volume, direction_mult]
  · intro _ h1 h2
    simp [set_volume, direction_mult, h1, h2]

/-- C6 witness: the amended decode applied at direction `0x01`. -/
theorem set_volume_direction_cases_witness :
    (set_volume ⟨[100]⟩ 200 1).isSome = true :=
  (set_volume_direction_cases ⟨[100]⟩ 200 1).1 (Or.inl rfl)

/-- C4 counterexample: with two sinks whose names both contain the target
substring, one direction event causes two set-volume requests, not one. -/
theorem sink_list_double_dispatch :
    (sink_list_run sinksTwo 1).length = 2 ∧ (2 : Nat) ≠ 1 := by decide

/-- C4 (amended): `sink_list_cb` issues one set-volume request per matching
output (not only the first), in enumeration order; the first request issued
targets the first matching output encountered. -/
theorem sink_list_ops_per_match : ∀ (sinks : List Sink) (d : Nat),
    (sink_list_run sinks d).length =
      (sinks.filter fun s => strstr s.name SINK_NAME_HEADSET).length ∧
    ∀ s, sinks.find? (fun s => strstr s.name SINK_NAME_HEADSET) = some s →
      (sink_list_run sinks d).head? =
        some (s.index, set_volume s.volume VOLUME_INCREMENT d) := by
  intro sinks d
  induction sinks with
  | nil =>
    refine ⟨rfl, ?_⟩
    intro s hs
    simp [List.find?] at hs
  | cons x rest ih =>
    cases hx : strstr x.name SINK_NAME_HEADSET with
    | true =>
      constructor
      · simp [sink_list_run, List.filterMap_cons, List.filter_cons, hx]
        have := ih.1
        simpa [sink_list_run] using this
      · intro s hs
        simp only [List.find?, hx] at hs
        injection hs with hs
        subst hs
        simp [sink_list_run, List.filterMap_cons, hx]
    | false =>
      constructor
      · simp only [sink_list_run, List.filterMap_cons, List.filter_cons, hx]
        simpa [sink_list_run] using ih.1
      · intro s hs
        simp only [List.find?, hx] at hs
        have := ih.2 s hs
        simpa [sink_list_run, List.filterMap_cons, hx] using this

/-- C4 witness: on a non-matching sink followed by a matching one, the first
(and here only) request targets the matching sink. -/
theorem sink_list_ops_per_match_witness :
    (sink_list_run sinksFirst 1).head? =
      some (5, set_volume ⟨[300, 100]⟩ VOLUME_INCREMENT 1) :=
  (sink_list_ops_per_match sinksFirst 1).2
    ⟨5, "Logitech_G933".toList, ⟨[300, 100]⟩⟩ (by decide)

theorem scan_hidraw_none : ∀ (entries : List HidrawEntry),
    (∀ e ∈ entries, e.link.all (fun l => ! strstr l DEVICE_USB_ID) = true) →
    scan_hidraw entries = none := by
  intro entries
  induction entries with
  | nil => intro _; rfl
  | cons e rest ih =>
    intro h
    have he := h e (by simp)
    cases hl : e.link with
    | none => simp [scan_hidraw, hl]
    | some l =>
      have hs : strstr l DEVICE_USB_ID = false := by
        simpa [Option.all, hl] using he
      simp only [scan_hidraw, hl, hs]
      simp only [Bool.false_eq_true, if_false]
      exact ih fun e' he' => h e' (by simp [he'])

/-- C7: if the registry root cannot be opened, discovery is fatal
(`exit(EXIT_FAILURE)`); if the root opens but no entry's link target
contains the vendor/product identifier, discovery returns `none` and the
process keeps running (an `Except.ok` result, not an error). -/
theorem find_hidraw_device_fatal_vs_none :
    find_hidraw_device none = Except.error () ∧
    ∀ entries : List HidrawEntry,
      (∀ e ∈ entries, e.link.all (fun l => ! strstr l DEVICE_USB_ID) = true) →
      find_hidraw_device (some entries) = Except.ok none := by
  refine ⟨rfl, ?_⟩
  intro entries h
  simp [find_hidraw_device, scan_hidraw_none entries h]

/-- C7 witness: a registry with one foreign-id entry and one dead link
yields "not found" without terminating. -/
theorem find_hidraw_device_fatal_vs_none_witness :
    find_hidraw_device (some entriesNoMatch) = Except.ok none :=
  find_hidraw_device_fatal_vs_none.2 entriesNoMatch (by decide)

/-- C8: as long as the registry root stays openable, the supervisor loop is
alive at every iteration (no retry cap) with the same fixed one-second
interval (no exponential backoff), and at any iteration where the scan
finds a matching device it starts a session on it — resuming operation
within the same process after any earlier absent-device or stream-end
iterations. -/
theorem supervisor_fixed_retry : ∀ (regs : Nat → Option (List HidrawEntry)) (n : Nat),
    (∀ m, m ≤ n → (regs m).isSome = true) →
    ∃ s, supervisor_trace regs n = some (s, 1) ∧
      ∀ entries dev, regs n = some entries → scan_hidraw entries = some dev →
        s = SupStep.session dev := by
  intro regs n
  induction n with
  | zero =>
    intro h
    have h0 := h 0 (Nat.le_refl 0)
    cases hr : regs 0 with
    | none => rw [hr] at h0; simp at h0
    | some entries =>
      cases hscan : scan_hidraw entries with
      | none =>
        refine ⟨SupStep.idle, ?_, ?_⟩
        · simp [supervisor_trace, supervisor_iteration, find_hidraw_device,
            hr, hscan, Except.toOption]
        · intro entries' dev h1 h2
          injection h1 with h1
          subst h1
          rw [hscan] at h2
          simp at h2
      | some d =>
        refine ⟨SupStep.session d, ?_, ?_⟩
        · simp [supervisor_trace, supervisor_iteration, find_hidraw_device,
            hr, hscan, Except.toOption]
        · intro entries' dev h1 h2
          injection h1 with h1
          subst h1
          rw [hscan] at h2
          injection h2 with h2
          subst h2
          rfl
  | succ n ih =>
    intro h
    obtain ⟨s0, hs0, _⟩ := ih (fun m hm => h m (Nat.le_succ_of_le hm))
    have hsn := h (n + 1) (Nat.le_refl _)
    cases hr : regs (n + 1) with
    | none => rw [hr] at hsn; simp at hsn
    | some entries =>
      cases hscan : scan_hidraw entries with
      | none =>
        refine ⟨SupStep.idle, ?_, ?_⟩
        · simp [supervisor_trace, hs0, supervisor_iteration, find_hidraw_device,
            hr, hscan, Except.toOption]
        · intro entries' dev h1 h2
          injection h1 with h1
          subst h1
          rw [hscan] at h2
          simp at h2
      | some d =>
        refine ⟨SupStep.session d, ?_, ?_⟩
        · simp [supervisor_trace, hs0, supervisor_iteration, find_hidraw_device,
            hr, hscan, Except.toOption]
        · intro entries' dev h1 h2
          injection h1 with h1
          subst h1
          rw [hscan] at h2
          injection h2 with h2
          subst h2
          rfl

/-- C8 witness: a device absent at iteration 0 and present from iteration 1
yields a session on `/dev/hidraw7` at iteration 1, after a one-second
sleep, inside the same supervisor run. -/
theorem supervisor_fixed_retry_witness :
    supervisor_trace regsReappear 1 =
      some (SupStep.session ("/dev/hidraw7".toList), 1) := by
  obtain ⟨s, hs, hses⟩ := supervisor_fixed_retry regsReappear 1
    (by intro m hm; interval_cases m <;> decide)
  have h1 : s = SupStep.session ("/dev/hidraw7".toList) :=
    hses entriesMatch ("/dev/hidraw7".toList) rfl (by decide)
  exact h1 ▸ hs

theorem early_cb_inv (st : EarlyState) (ev : Option Sink) (h : EarlyInv st) :
    EarlyInv (early_sink_cb st ev) := by
  obtain ⟨hlen, hnd⟩ := h
  cases hdb : st.done with
  | true =>
    simp [early_sink_cb, hdb]
    exact ⟨hlen, hnd⟩
  | false =>
    obtain ⟨hh0, hops⟩ := hnd hdb
    cases ev with
    | none =>
      by_cases hdf : st.sink_default = 0
      · simp [early_sink_cb, hdb, hdf, hh0]
        exact ⟨hlen, fun _ => ⟨hh0, hops⟩⟩
      · simp [early_sink_cb, hdb, hdf, hh0, hops, EarlyInv]
    | some i =>
      cases hD : strstr i.name SINK_NAME_DEFAULT with
      | true =>
        simp [early_sink_cb, hdb, hD, hh0, hops, EarlyInv]
      | false =>
        cases hH : strstr i.name SINK_NAME_HEADSET with
        | true =>
          by_cases hi : i.index = 0
          · simp [early_sink_cb, hdb, hD, hH, hi, hops, EarlyInv]
          · simp [early_sink_cb, hdb, hD, hH, hi, hops, EarlyInv]
        | false =>
          simp [early_sink_cb, hdb, hD, hH, hh0]
          exact ⟨hlen, fun _ => ⟨hh0, hops⟩⟩

/-- C9 (amended): the early multi-sink variant issues at most one volume
operation per enumeration pass — the `done` flag and the immediate headset
dispatch prevent the alleged double dispatch even when both a default-named
and a headset-named output are present. -/
theorem early_run_single_dispatch : ∀ (sinks : List Sink),
    (early_run sinks).ops.length ≤ 1 := by
  intro sinks
  have hfold : ∀ (l : List Sink) (st : EarlyState), EarlyInv st →
      EarlyInv (l.foldl (fun st i => early_sink_cb st (some i)) st) := by
    intro l
    induction l with
    | nil => intro st h; simpa using h
    | cons x rest ih =>
      intro st h
      simpa [List.foldl] using ih _ (early_cb_inv st (some x) h)
  have h0 : EarlyInv earlyInit := by unfold EarlyInv; decide
  exact (early_cb_inv _ none (hfold sinks earlyInit h0)).1

/-- C9 counterexample: on the concrete enumeration holding both a
default-named and a headset-named output, one hardware event yields exactly
one volume operation (the headset's), not two. -/
theorem early_run_both_present_single_op :
    (early_run sinksBoth).ops = [(2, VOLUME_INCREMENT_HEADSET)] ∧
    (early_run sinksBoth).ops.length ≠ 2 := by decide

/-- C10: every set-volume issued by the daemon writes one single value into
all channels of the target sink's volume vector (erasing any per-channel
balance); in the non-wrapping range that value is the previous maximum
channel value plus (up) or minus (down) the increment. -/
theorem set_volume_levels_all_channels : ∀ (v : PaCvolume) (inc d : Nat) (r : PaCvolume),
    set_volume v inc d = some r →
    (∀ a ∈ r.values, ∀ b ∈ r.values, a = b) ∧
    (d = 1 → pa_cvolume_max v + inc ≤ PA_VOLUME_MAX →
      ∀ a ∈ r.values, a = pa_cvolume_max v + inc) ∧
    (d = 2 → inc ≤ pa_cvolume_max v → pa_cvolume_max v ≤ PA_VOLUME_MAX →
      ∀ a ∈ r.values, a = pa_cvolume_max v - inc) := by
  intro v inc d r h
  by_cases hd1 : d = 1
  · subst hd1
    simp [set_volume, direction_mult] at h
    subst h
    refine ⟨?_, ?_, ?_⟩
    · intro a ha b hb
      simp only [pa_cvolume_set] at ha hb
      obtain ⟨x, hx, hax⟩ := List.mem_map.mp ha
      obtain ⟨y, hy, hby⟩ := List.mem_map.mp hb
      rw [← hax, ← hby]
    · intro _ hle a ha
      simp only [pa_cvolume_set] at ha
      obtain ⟨x, hx, hax⟩ := List.mem_map.mp ha
      rw [← hax]
      simp only [clampVolume, PA_VOLUME_MAX] at hle ⊢
      omega
    · intro hc
      exact absurd hc (by decide)
  · by_cases hd2 : d = 2
    · subst hd2
      simp [set_volume, direction_mult] at h
      subst h
      refine ⟨?_, ?_, ?_⟩
      · intro a ha b hb
        simp only [pa_cvolume_set] at ha hb
        obtain ⟨x, hx, hax⟩ := List.mem_map.mp ha
        obtain ⟨y, hy, hby⟩ := List.mem_map.mp hb
        rw [← hax, ← hby]
      · intro hc
        exact absurd hc (by decide)
      · intro _ hle hmax a ha
        simp only [pa_cvolume_set] at ha
        obtain ⟨x, hx, hax⟩ := List.mem_map.mp ha
        rw [← hax]
        simp only [clampVolume, PA_VOLUME_MAX] at hle hmax ⊢
        omega
    · simp [set_volume, direction_mult, hd1, hd2] at h

/-- C10 witness: applied at a sink with unequal channels `[300, 100]` and a
down event — both channels end at `max − increment = 100`. -/
theorem set_volume_levels_all_channels_witness :
    (100 : Nat) = pa_cvolume_max ⟨[300, 100]⟩ - 200 :=
  (set_volume_levels_all_channels ⟨[300, 100]⟩ 200 2 ⟨[100, 100]⟩
    (by decide)).2.2 rfl (by decide) (by decide) 100 (by decide)

/-- C10 counterexample: at max channel volume 100 with a down event of
increment 200, every channel of the issued vector is set to the clamped
ceiling `PA_VOLUME_MAX`, which is neither the previous maximum minus the
increment nor the previous maximum plus it — so "the previous maximum
channel value plus or minus the increment" fails for adjustments that
cross the valid range. -/
theorem set_volume_clamped_not_linear :
    set_volume ⟨[100]⟩ 200 2 = some ⟨[PA_VOLUME_MAX]⟩ ∧
    PA_VOLUME_MAX ≠ pa_cvolume_max ⟨[100]⟩ - 200 ∧
    PA_VOLUME_MAX ≠ pa_cvolume_max ⟨[100]⟩ + 200 := by decide
